import Mathlib

/-!
Verification of the go-modules registry (brunoga/go-modules).

We shallowly embed the registry from `modules.go` (the generic-id /
specific-id variant) and the base implementation from `generic-module.go`.
Go maps (`map[string]T`) are embedded as association lists with unique
keys: `gfind` models indexing, `gput` models assignment and `gdel` models
`delete`.  A Go module value is embedded as an immutable record carrying a
`ref` field that stands for the Go object's identity (two distinct module
objects receive distinct refs), so Lean equality on `Module` corresponds
to Go interface (pointer) equality.  Lifecycle hook invocations performed
by a registry call are recorded explicitly in the call's result.
-/

namespace GoModules

/-- Association-list embedding of a Go `map[string]T`. -/
abbrev GoMap (α : Type) : Type := List (String × α)

/-- Go map indexing `m[k]`; the comma-ok form corresponds to `Option`. -/
def gfind {α : Type} (m : GoMap α) (k : String) : Option α :=
  match m with
  | [] => none
  | (k', v) :: rest => if k' = k then some v else gfind rest k

/-- Go map assignment `m[k] = v`. -/
def gput {α : Type} (m : GoMap α) (k : String) (v : α) : GoMap α :=
  match m with
  | [] => [(k, v)]
  | (k', v') :: rest => if k' = k then (k, v) :: rest else (k', v') :: gput rest k v

/-- Go map deletion `delete(m, k)`. -/
def gdel {α : Type} (m : GoMap α) (k : String) : GoMap α :=
  match m with
  | [] => []
  | (k', v') :: rest => if k' = k then gdel rest k else (k', v') :: gdel rest k

/-- A Go map has pairwise distinct keys; every reachable embedded map
satisfies this. -/
def nodupKeys {α : Type} (m : GoMap α) : Prop :=
  (m.map Prod.fst).Nodup

theorem gfind_gput_self {α : Type} (m : GoMap α) (k : String) (v : α) :
    gfind (gput m k v) k = some v := by
  induction m with
  | nil => simp [gput, gfind]
  | cons p rest ih =>
    by_cases h : p.1 = k
    · simp [gput, gfind, h]
    · simp [gput, gfind, h, ih]

theorem gfind_gput_ne {α : Type} (m : GoMap α) (k k' : String) (v : α)
    (h : k' ≠ k) : gfind (gput m k v) k' = gfind m k' := by
  induction m with
  | nil => simp [gput, gfind, Ne.symm h]
  | cons p rest ih =>
    by_cases hp : p.1 = k
    · rw [gput, if_pos hp, gfind, if_neg (fun hk => h hk.symm), gfind,
        if_neg (fun hk => h (hk.symm.trans hp))]
    · rw [gput, if_neg hp, gfind, gfind]
      by_cases hp' : p.1 = k'
      · rw [if_pos hp', if_pos hp']
      · rw [if_neg hp', if_neg hp', ih]

theorem gfind_gdel_self {α : Type} (m : GoMap α) (k : String) :
    gfind (gdel m k) k = none := by
  induction m with
  | nil => simp [gdel, gfind]
  | cons p rest ih =>
    by_cases h : p.1 = k
    · simp [gdel, h, ih]
    · simp [gdel, gfind, h, ih]

theorem gfind_gdel_ne {α : Type} (m : GoMap α) (k k' : String)
    (h : k' ≠ k) : gfind (gdel m k) k' = gfind m k' := by
  induction m with
  | nil => simp [gdel]
  | cons p rest ih =>
    by_cases hp : p.1 = k
    · rw [gdel, if_pos hp, ih, gfind, if_neg (by rw [hp]; exact fun hk => h hk.symm)]
    · rw [gdel, if_neg hp, gfind, gfind]
      by_cases hp' : p.1 = k'
      · simp [hp']
      · simp [hp', ih]

theorem gfind_mem {α : Type} {m : GoMap α} {k : String} {v : α}
    (h : gfind m k = some v) : (k, v) ∈ m := by
  induction m with
  | nil => simp [gfind] at h
  | cons p rest ih =>
    rw [gfind] at h
    by_cases hp : p.1 = k
    · rw [if_pos hp] at h
      injection h with h2
      rw [List.mem_cons]
      left
      rw [← hp, ← h2]
    · rw [if_neg hp] at h
      exact List.mem_cons_of_mem _ (ih h)

theorem mem_gfind {α : Type} {m : GoMap α} {k : String} {v : α}
    (hnd : nodupKeys m) (h : (k, v) ∈ m) : gfind m k = some v := by
  induction m with
  | nil => simp at h
  | cons p rest ih =>
    rw [nodupKeys, List.map_cons, List.nodup_cons] at hnd
    rcases List.mem_cons.mp h with h1 | h2
    · rw [gfind, ← h1, if_pos rfl]
    · have hk : p.1 ≠ k := by
        intro he
        exact hnd.1 (he ▸ (List.mem_map.mpr ⟨(k, v), h2, rfl⟩))
      rw [gfind, if_neg hk]
      exact ih hnd.2 h2

theorem gfind_eq_none_not_mem {α : Type} {m : GoMap α} {k : String}
    (h : gfind m k = none) : k ∉ m.map Prod.fst := by
  induction m with
  | nil => simp
  | cons p rest ih =>
    rw [gfind] at h
    by_cases hp : p.1 = k
    · rw [if_pos hp] at h; exact absurd h (by simp)
    · rw [if_neg hp] at h
      simp only [List.map_cons, List.mem_cons]
      rintro (h1 | h2)
      · exact hp h1.symm
      · exact ih h h2

theorem mem_keys_gput {α : Type} {m : GoMap α} {k x : String} {v : α}
    (h : x ∈ (gput m k v).map Prod.fst) : x = k ∨ x ∈ m.map Prod.fst := by
  induction m with
  | nil => simp [gput] at h; simp [h]
  | cons p rest ih =>
    by_cases hp : p.1 = k
    · rw [gput, if_pos hp] at h
      simp only [List.map_cons, List.mem_cons] at h ⊢
      tauto
    · rw [gput, if_neg hp] at h
      simp only [List.map_cons, List.mem_cons] at h ⊢
      rcases h with h1 | h2
      · tauto
      · rcases ih h2 with h3 | h4 <;> tauto

theorem mem_keys_gdel {α : Type} {m : GoMap α} {k x : String}
    (h : x ∈ (gdel m k).map Prod.fst) : x ∈ m.map Prod.fst := by
  induction m with
  | nil => simp [gdel] at h
  | cons p rest ih =>
    by_cases hp : p.1 = k
    · rw [gdel, if_pos hp] at h
      simp only [List.map_cons, List.mem_cons]
      exact Or.inr (ih h)
    · rw [gdel, if_neg hp] at h
      simp only [List.map_cons, List.mem_cons] at h ⊢
      rcases h with h1 | h2
      · tauto
      · exact Or.inr (ih h2)

theorem nodup_gput {α : Type} {m : GoMap α} (k : String) (v : α)
    (hnd : nodupKeys m) : nodupKeys (gput m k v) := by
  induction m with
  | nil => simp [gput, nodupKeys]
  | cons p rest ih =>
    rw [nodupKeys, List.map_cons, List.nodup_cons] at hnd
    by_cases hp : p.1 = k
    · rw [gput, if_pos hp, nodupKeys, List.map_cons, List.nodup_cons]
      exact ⟨by rw [← hp]; exact hnd.1, hnd.2⟩
    · rw [gput, if_neg hp, nodupKeys, List.map_cons, List.nodup_cons]
      refine ⟨fun hmem => ?_, ih hnd.2⟩
      rcases mem_keys_gput hmem with h1 | h2
      · exact hp (by simpa using h1)
      · exact hnd.1 h2

theorem nodup_gdel {α : Type} {m : GoMap α} (k : String)
    (hnd : nodupKeys m) : nodupKeys (gdel m k) := by
  induction m with
  | nil => simp [gdel, nodupKeys]
  | cons p rest ih =>
    rw [nodupKeys, List.map_cons, List.nodup_cons] at hnd
    by_cases hp : p.1 = k
    · rw [gdel, if_pos hp]
      exact ih hnd.2
    · rw [gdel, if_neg hp, nodupKeys, List.map_cons, List.nodup_cons]
      exact ⟨fun hmem => hnd.1 (mem_keys_gdel hmem), ih hnd.2⟩

theorem gdel_not_mem {α : Type} {m : GoMap α} {k : String}
    (h : k ∉ m.map Prod.fst) : gdel m k = m := by
  induction m with
  | nil => rfl
  | cons p rest ih =>
    simp only [List.map_cons, List.mem_cons] at h
    push_neg at h
    rw [gdel, if_neg (fun he => h.1 he.symm), ih h.2]

theorem gput_ne_nil {α : Type} (m : GoMap α) (k : String) (v : α) :
    gput m k v ≠ [] := by
  cases m with
  | nil => simp [gput]
  | cons p rest =>
    rw [gput]
    split <;> simp

theorem length_gput_none {α : Type} {m : GoMap α} {k : String} (v : α)
    (h : gfind m k = none) : (gput m k v).length = m.length + 1 := by
  induction m with
  | nil => simp [gput]
  | cons p rest ih =>
    rw [gfind] at h
    by_cases hp : p.1 = k
    · rw [if_pos hp] at h; exact absurd h (by simp)
    · rw [if_neg hp] at h
      rw [gput, if_neg hp, List.length_cons, List.length_cons, ih h]

theorem length_gput_some {α : Type} {m : GoMap α} {k : String} {w : α} (v : α)
    (h : gfind m k = some w) : (gput m k v).length = m.length := by
  induction m with
  | nil => simp [gfind] at h
  | cons p rest ih =>
    rw [gfind] at h
    by_cases hp : p.1 = k
    · rw [gput, if_pos hp, List.length_cons, List.length_cons]
    · rw [if_neg hp] at h
      rw [gput, if_neg hp, List.length_cons, List.length_cons, ih h]

theorem length_gdel_some {α : Type} {m : GoMap α} {k : String} {v : α}
    (hnd : nodupKeys m) (h : gfind m k = some v) :
    m.length = (gdel m k).length + 1 := by
  induction m with
  | nil => simp [gfind] at h
  | cons p rest ih =>
    rw [nodupKeys, List.map_cons, List.nodup_cons] at hnd
    rw [gfind] at h
    by_cases hp : p.1 = k
    · rw [gdel, if_pos hp, gdel_not_mem (hp ▸ hnd.1), List.length_cons]
    · rw [if_neg hp] at h
      rw [gdel, if_neg hp, List.length_cons, List.length_cons, ih hnd.2 h]

/-! ### The data model of `modules.go` -/

/-- Embedding of Go `error` values as they occur in this package:
`idCollision` and `moduleNotFound` are the two errors the registry itself
constructs with `fmt.Errorf`; `custom` embeds any error value returned by
a module's own lifecycle hooks. -/
inductive Err : Type where
  | idCollision (genericId specificId : String)
  | moduleNotFound
  | custom (msg : String)
deriving DecidableEq, Repr

/-- Go `%q` formatting of a string (for strings with no escapes). -/
def goQuote (s : String) : String := "\x22" ++ s ++ "\x22"

/-- The message carried by each embedded error, exactly as the Go code
formats it. -/
def Err.message : Err → String
  | Err.idCollision g s => "id colision detected : " ++ goQuote g ++ " / " ++ goQuote s
  | Err.moduleNotFound => "module not found"
  | Err.custom msg => msg

/-- A lifecycle-hook invocation observed during a registry call, tagged by
the `ref` (object identity) of the module whose hook ran. -/
inductive HookCall : Type where
  | registerHook (ref : Nat)
  | unregisterHook (ref : Nat)
deriving DecidableEq, Repr

/-- Embedding of a value satisfying the `Module` interface, as observed by
the registry.  `ref` models the Go object identity: two distinct module
objects carry distinct refs, so structural equality of `Module` coincides
with the Go interface comparison `m == module` used by `UnregisterModule`.
`registerResult` and `unregisterResult` are the (pure, per the claims'
assumption that identity and behavior are stable) values returned by the
module's `Register()` and `Unregister()` hooks. -/
structure Module : Type where
  ref : Nat
  name : String
  version : String
  genericId : String
  specificId : String
  moduleType : String
  registerResult : Option Err
  unregisterResult : Option Err
deriving DecidableEq, Repr

/-- Go `ModuleMap`: a container for Modules keyed by specific id. -/
abbrev ModuleMap : Type := GoMap Module

/-- Go `FullModuleMap`: a container for ModuleMaps keyed by generic id. -/
abbrev FullModuleMap : Type := GoMap ModuleMap

/-- The registry's process-wide state: the two package-level variables of
`modules.go`. -/
structure Registry : Type where
  registeredModulesByType : GoMap FullModuleMap
  registeredModulesById : FullModuleMap
deriving DecidableEq, Repr

/-- The state established by the package's `init` function. -/
def initRegistry : Registry := ⟨[], []⟩

/-- Result of one registry call: the registry state after the call, the
error value the call returns (`none` = Go `nil`), and the lifecycle hooks
the call invoked, in order. -/
structure CallResult : Type where
  state : Registry
  err : Option Err
  hookCalls : List HookCall
deriving DecidableEq, Repr

/-- Two-level Go map lookup `fm[g][s]` with nil-map semantics (indexing a
missing outer key yields the nil map, whose lookups all miss). -/
def gfind2 (fm : FullModuleMap) (g s : String) : Option Module :=
  gfind ((gfind fm g).getD []) s

/-- `registeredModulesById[g][s]`. -/
def lookupById (st : Registry) (g s : String) : Option Module :=
  gfind2 st.registeredModulesById g s

/-- `registeredModulesByType[t][g][s]`. -/
def lookupByType (st : Registry) (t g s : String) : Option Module :=
  gfind2 ((gfind st.registeredModulesByType t).getD []) g s

/-- `RegisterModule` from `modules.go`: check for an id collision in the
by-id index, run the module's `Register()` hook, then insert into both
indices (creating missing intermediate buckets). -/
def RegisterModule (st : Registry) (module : Module) : CallResult :=
  let genericModuleId := module.genericId
  let specificModuleId := module.specificId
  if (lookupById st genericModuleId specificModuleId).isSome then
    ⟨st, some (Err.idCollision genericModuleId specificModuleId), []⟩
  else
    match module.registerResult with
    | some err => ⟨st, some err, [HookCall.registerHook module.ref]⟩
    | none =>
      let moduleType := module.moduleType
      let typeMap := (gfind st.registeredModulesByType moduleType).getD []
      let genericMap := (gfind typeMap genericModuleId).getD []
      let byType := gput st.registeredModulesByType moduleType
        (gput typeMap genericModuleId (gput genericMap specificModuleId module))
      let idMap := (gfind st.registeredModulesById genericModuleId).getD []
      let byId := gput st.registeredModulesById genericModuleId
        (gput idMap specificModuleId module)
      ⟨⟨byType, byId⟩, none, [HookCall.registerHook module.ref]⟩

/-- The scan in `UnregisterModule`: the key of the first entry of the
type-indexed bucket whose stored value is identical to the argument. -/
def findModuleKey (typeModuleMap : ModuleMap) (module : Module) : Option String :=
  match typeModuleMap with
  | [] => none
  | (id, m) :: rest => if m = module then some id else findModuleKey rest module

/-- The by-type bucket `registeredModulesByType[t][g]` (nil-map semantics). -/
def typeBucket (byType : GoMap FullModuleMap) (t g : String) : ModuleMap :=
  (gfind ((gfind byType t).getD []) g).getD []

/-- The by-type generic-id map after `delete(typeModuleMap, id)` and the
conditional `delete(registeredModulesByType[moduleType], genericModuleId)`
pruning of `UnregisterModule`. -/
def prunedGenMap (byType : GoMap FullModuleMap) (t g id : String) : FullModuleMap :=
  let tm1 := gdel (typeBucket byType t g) id
  let genMap1 := gput ((gfind byType t).getD []) g tm1
  if tm1.length = 0 then gdel genMap1 g else genMap1

/-- Effect of `UnregisterModule`'s successful branch on the by-type index,
including the conditional `delete(registeredModulesByType, moduleType)`. -/
def removeFromTypeIndex (byType : GoMap FullModuleMap) (t g id : String) :
    GoMap FullModuleMap :=
  let genMap2 := prunedGenMap byType t g id
  let byType1 := gput byType t genMap2
  if genMap2.length = 0 then gdel byType1 t else byType1

/-- The by-id bucket after `delete(registeredModulesById[genericModuleId],
specificModuleId)` (nil-map semantics: deleting from a missing bucket is a
no-op). -/
def prunedIdBucket (byId : FullModuleMap) (g s : String) : ModuleMap :=
  gdel ((gfind byId g).getD []) s

/-- Effect of `UnregisterModule`'s successful branch on the by-id index,
including the conditional `delete(registeredModulesById, genericModuleId)`. -/
def removeFromIdIndex (byId : FullModuleMap) (g s : String) : FullModuleMap :=
  let idMap1 := prunedIdBucket byId g s
  let byId1 := gput byId g idMap1
  if idMap1.length = 0 then gdel byId1 g else byId1

/-- `UnregisterModule` from `modules.go`: scan the type-indexed bucket for
an entry identical to the argument; on a hit, remove it from both indices
and prune emptied buckets; otherwise fail with "module not found".  The
module's own `Unregister()` hook is never invoked by this function. -/
def UnregisterModule (st : Registry) (module : Module) : CallResult :=
  let moduleType := module.moduleType
  let genericModuleId := module.genericId
  let specificModuleId := module.specificId
  let typeModuleMap := typeBucket st.registeredModulesByType moduleType genericModuleId
  match findModuleKey typeModuleMap module with
  | none => ⟨st, some Err.moduleNotFound, []⟩
  | some id =>
    ⟨⟨removeFromTypeIndex st.registeredModulesByType moduleType genericModuleId id,
      removeFromIdIndex st.registeredModulesById genericModuleId specificModuleId⟩,
      none, []⟩

/-! ### The query functions of `modules.go` -/

/-- `GetModulesByType`: the by-type index entry for a type (`none` = the
Go nil map). -/
def GetModulesByType (st : Registry) (moduleType : String) : Option FullModuleMap :=
  gfind st.registeredModulesByType moduleType

/-- `countFullModuleMap`: sum of the sizes of all second-level buckets. -/
def countFullModuleMap (fullModuleMap : FullModuleMap) : Nat :=
  List.foldl (fun count s => count + s.2.length) 0 fullModuleMap

/-- `GetModuleCountByType`. -/
def GetModuleCountByType (st : Registry) (moduleType : String) : Nat :=
  countFullModuleMap ((GetModulesByType st moduleType).getD [])

/-- `GetModulesByGenericId`. -/
def GetModulesByGenericId (st : Registry) (genericModuleId : String) : Option ModuleMap :=
  gfind st.registeredModulesById genericModuleId

/-- `GetModuleCountByGenericId`. -/
def GetModuleCountByGenericId (st : Registry) (genericModuleId : String) : Nat :=
  ((GetModulesByGenericId st genericModuleId).getD []).length

/-- `GetModuleById`. -/
def GetModuleById (st : Registry) (genericModuleId specificModuleId : String) : Option Module :=
  lookupById st genericModuleId specificModuleId

/-- `GetDefaultModuleByGenericId`: the default module has the empty string
as its specific id. -/
def GetDefaultModuleByGenericId (st : Registry) (genericModuleId : String) : Option Module :=
  lookupById st genericModuleId ""

/-- `GetAllModules`. -/
def GetAllModules (st : Registry) : FullModuleMap :=
  st.registeredModulesById

/-- `GetAllModulesCount`. -/
def GetAllModulesCount (st : Registry) : Nat :=
  countFullModuleMap (GetAllModules st)

/-! ### The base implementation of `generic-module.go` -/

/-- Go `ParameterMap`: a list of parameters used for configuring a module. -/
abbrev ParameterMap : Type := GoMap String

/-- The `GenericModule` struct of `generic-module.go` (the generic-id /
specific-id variant); the parameter map pointer is embedded by value. -/
structure GenericModule : Type where
  name : String
  version : String
  genericId : String
  specificId : String
  moduleType : String
  parameters : ParameterMap
  ready : Bool
deriving DecidableEq, Repr

/-- `NewGenericModule`: fresh instance with an empty parameter map, not
ready. -/
def NewGenericModule (name version genericId specificId moduleType : String) :
    GenericModule :=
  ⟨name, version, genericId, specificId, moduleType, [], false⟩

/-- `GenericModule.Parameters`. -/
def GenericModule.Parameters (gm : GenericModule) : ParameterMap :=
  gm.parameters

/-- `GenericModule.Configure`: store the given parameter map, return nil;
the updated receiver is returned explicitly. -/
def GenericModule.Configure (gm : GenericModule) (parameters : ParameterMap) :
    GenericModule × Option Err :=
  ({ gm with parameters := parameters }, none)

/-- `GenericModule.Ready`. -/
def GenericModule.Ready (gm : GenericModule) : Bool :=
  gm.ready

/-- `GenericModule.SetReady`. -/
def GenericModule.SetReady (gm : GenericModule) (ready : Bool) : GenericModule :=
  { gm with ready := ready }

/-- `GenericModule.Register` hook: a no-op returning nil. -/
def GenericModule.RegisterHook (gm : GenericModule) : Option Err :=
  none

/-- `GenericModule.Unregister` hook: a no-op returning nil. -/
def GenericModule.UnregisterHook (gm : GenericModule) : Option Err :=
  none

/-- `GenericModule.Duplicate`: always fails. -/
def GenericModule.Duplicate (gm : GenericModule) (specificId : String) :
    Option Module × Option Err :=
  (none, some (Err.custom "generic module can not be duplicated"))

/-! ### Counting lemmas -/

theorem countFullModuleMap_foldl (fm : FullModuleMap) (n : Nat) :
    List.foldl (fun count s => count + s.2.length) n fm
      = n + (fm.map (fun p => p.2.length)).sum := by
  induction fm generalizing n with
  | nil => simp
  | cons p rest ih => simp [List.foldl, ih, Nat.add_assoc]

theorem countFullModuleMap_eq_sum (fm : FullModuleMap) :
    countFullModuleMap fm = (fm.map (fun p => p.2.length)).sum := by
  rw [countFullModuleMap, countFullModuleMap_foldl, Nat.zero_add]

theorem countFullModuleMap_nil : countFullModuleMap [] = 0 := rfl

theorem countFullModuleMap_cons (p : String × ModuleMap) (rest : FullModuleMap) :
    countFullModuleMap (p :: rest) = p.2.length + countFullModuleMap rest := by
  rw [countFullModuleMap_eq_sum, countFullModuleMap_eq_sum, List.map_cons,
    List.sum_cons]

theorem countFullModuleMap_cons2 (k : String) (b : ModuleMap) (rest : FullModuleMap) :
    countFullModuleMap ((k, b) :: rest) = b.length + countFullModuleMap rest :=
  countFullModuleMap_cons (k, b) rest

theorem countFullModuleMap_gput (fm : FullModuleMap) (g : String) (b : ModuleMap) :
    countFullModuleMap (gput fm g b) + ((gfind fm g).getD []).length
      = countFullModuleMap fm + b.length := by
  induction fm with
  | nil =>
    rw [gput, gfind, countFullModuleMap_cons2, countFullModuleMap_nil]
    simp
  | cons p rest ih =>
    obtain ⟨k1, v1⟩ := p
    by_cases hp : k1 = g
    · rw [gput, if_pos hp, gfind, if_pos hp, countFullModuleMap_cons2,
        countFullModuleMap_cons2]
      simp only [Option.getD_some]
      omega
    · rw [gput, if_neg hp, gfind, if_neg hp, countFullModuleMap_cons2,
        countFullModuleMap_cons2]
      omega

theorem countFullModuleMap_gdel (fm : FullModuleMap) (g : String)
    (hnd : nodupKeys fm) :
    countFullModuleMap fm
      = countFullModuleMap (gdel fm g) + ((gfind fm g).getD []).length := by
  induction fm with
  | nil => rw [gdel, gfind]; simp [countFullModuleMap_nil]
  | cons p rest ih =>
    rw [nodupKeys, List.map_cons, List.nodup_cons] at hnd
    obtain ⟨k1, v1⟩ := p
    by_cases hp : k1 = g
    · rw [gdel, if_pos hp, gfind, if_pos hp,
        gdel_not_mem (hp ▸ hnd.1), countFullModuleMap_cons2]
      simp only [Option.getD_some]
      omega
    · rw [gdel, if_neg hp, gfind, if_neg hp, countFullModuleMap_cons2,
        countFullModuleMap_cons2]
      have := ih hnd.2
      omega

/-! ### Characterization of successful registration -/

theorem registerModule_success_eq (st : Registry) (M : Module)
    (habs : lookupById st M.genericId M.specificId = none)
    (hhook : M.registerResult = none) :
    RegisterModule st M =
      ⟨⟨gput st.registeredModulesByType M.moduleType
          (gput ((gfind st.registeredModulesByType M.moduleType).getD [])
            M.genericId
            (gput ((gfind ((gfind st.registeredModulesByType M.moduleType).getD [])
                M.genericId).getD [])
              M.specificId M)),
        gput st.registeredModulesById M.genericId
          (gput ((gfind st.registeredModulesById M.genericId).getD [])
            M.specificId M)⟩,
        none, [HookCall.registerHook M.ref]⟩ := by
  rw [RegisterModule]
  simp [habs, hhook]

theorem register_collision_eq (st : Registry) (M : Module)
    (hpresent : (lookupById st M.genericId M.specificId).isSome) :
    RegisterModule st M
      = ⟨st, some (Err.idCollision M.genericId M.specificId), []⟩ := by
  rw [RegisterModule]
  simp [hpresent]

theorem register_hook_failure_eq (st : Registry) (M : Module) (e : Err)
    (habs : lookupById st M.genericId M.specificId = none)
    (hhook : M.registerResult = some e) :
    RegisterModule st M = ⟨st, some e, [HookCall.registerHook M.ref]⟩ := by
  rw [RegisterModule]
  simp [habs, hhook]

theorem unregister_not_found_eq (st : Registry) (M : Module)
    (hfk : findModuleKey (typeBucket st.registeredModulesByType M.moduleType
      M.genericId) M = none) :
    UnregisterModule st M = ⟨st, some Err.moduleNotFound, []⟩ := by
  rw [UnregisterModule]
  simp [hfk]

theorem lookupById_register_self (st : Registry) (M : Module)
    (habs : lookupById st M.genericId M.specificId = none)
    (hhook : M.registerResult = none) :
    lookupById (RegisterModule st M).state M.genericId M.specificId = some M := by
  rw [registerModule_success_eq st M habs hhook]
  simp [lookupById, gfind2, gfind_gput_self]

theorem lookupById_register_other (st : Registry) (M : Module) (g' s' : String)
    (habs : lookupById st M.genericId M.specificId = none)
    (hhook : M.registerResult = none)
    (hne : ¬(g' = M.genericId ∧ s' = M.specificId)) :
    lookupById (RegisterModule st M).state g' s' = lookupById st g' s' := by
  rw [registerModule_success_eq st M habs hhook]
  simp only [lookupById, gfind2]
  by_cases hg : g' = M.genericId
  · have hs : s' ≠ M.specificId := fun hs => hne ⟨hg, hs⟩
    subst hg
    rw [gfind_gput_self, Option.getD_some, gfind_gput_ne _ _ _ _ hs]
  · rw [gfind_gput_ne _ _ _ _ hg]

theorem lookupByType_register_self (st : Registry) (M : Module)
    (habs : lookupById st M.genericId M.specificId = none)
    (hhook : M.registerResult = none) :
    lookupByType (RegisterModule st M).state M.moduleType M.genericId
      M.specificId = some M := by
  rw [registerModule_success_eq st M habs hhook]
  simp [lookupByType, gfind2, gfind_gput_self]

theorem lookupByType_register_other (st : Registry) (M : Module)
    (t' g' s' : String)
    (habs : lookupById st M.genericId M.specificId = none)
    (hhook : M.registerResult = none)
    (hne : ¬(t' = M.moduleType ∧ g' = M.genericId ∧ s' = M.specificId)) :
    lookupByType (RegisterModule st M).state t' g' s'
      = lookupByType st t' g' s' := by
  rw [registerModule_success_eq st M habs hhook]
  simp only [lookupByType, gfind2]
  by_cases ht : t' = M.moduleType
  · subst ht
    rw [gfind_gput_self, Option.getD_some]
    by_cases hg : g' = M.genericId
    · have hs : s' ≠ M.specificId := fun hs => hne ⟨rfl, hg, hs⟩
      subst hg
      rw [gfind_gput_self, Option.getD_some, gfind_gput_ne _ _ _ _ hs]
    · rw [gfind_gput_ne _ _ _ _ hg]
  · rw [gfind_gput_ne _ _ _ _ ht]

theorem findModuleKey_eq_none {mm : ModuleMap} {M : Module}
    (h : ∀ p ∈ mm, p.2 ≠ M) : findModuleKey mm M = none := by
  induction mm with
  | nil => rfl
  | cons p rest ih =>
    obtain ⟨id, m⟩ := p
    rw [findModuleKey, if_neg (h (id, m) (List.mem_cons_self _ _))]
    exact ih (fun q hq => h q (List.mem_cons_of_mem _ hq))

/-! ### Case-analysis helpers for map updates -/

theorem gfind_gput_cases {α : Type} {m : GoMap α} {k k' : String} {v w : α}
    (h : gfind (gput m k v) k' = some w) :
    (k' = k ∧ w = v) ∨ (k' ≠ k ∧ gfind m k' = some w) := by
  by_cases hk : k' = k
  · subst hk
    rw [gfind_gput_self] at h
    exact Or.inl ⟨rfl, (Option.some.inj h).symm⟩
  · rw [gfind_gput_ne _ _ _ _ hk] at h
    exact Or.inr ⟨hk, h⟩

theorem gfind_gdel_cases {α : Type} {m : GoMap α} {k k' : String} {w : α}
    (h : gfind (gdel m k) k' = some w) : k' ≠ k ∧ gfind m k' = some w := by
  by_cases hk : k' = k
  · subst hk
    rw [gfind_gdel_self] at h
    exact nomatch h
  · rw [gfind_gdel_ne _ _ _ hk] at h
    exact ⟨hk, h⟩

theorem mem_gdel {α : Type} {m : GoMap α} {k k' : String} {v : α}
    (hmem : (k', v) ∈ m) (hne : k' ≠ k) : (k', v) ∈ gdel m k := by
  induction m with
  | nil => exact nomatch hmem
  | cons p rest ih =>
    by_cases hp : p.1 = k
    · rw [gdel, if_pos hp]
      rcases List.mem_cons.mp hmem with h1 | h2
      · cases h1
        exact absurd hp hne
      · exact ih h2
    · rw [gdel, if_neg hp]
      rcases List.mem_cons.mp hmem with h1 | h2
      · exact h1 ▸ List.mem_cons_self _ _
      · exact List.mem_cons_of_mem _ (ih h2)

theorem mem_gput_ne {α : Type} {m : GoMap α} {k k' : String} {v w : α}
    (hmem : (k', v) ∈ m) (hne : k' ≠ k) : (k', v) ∈ gput m k w := by
  induction m with
  | nil => exact nomatch hmem
  | cons p rest ih =>
    by_cases hp : p.1 = k
    · rw [gput, if_pos hp]
      rcases List.mem_cons.mp hmem with h1 | h2
      · cases h1
        exact absurd hp hne
      · exact List.mem_cons_of_mem _ h2
    · rw [gput, if_neg hp]
      rcases List.mem_cons.mp hmem with h1 | h2
      · exact h1 ▸ List.mem_cons_self _ _
      · exact List.mem_cons_of_mem _ (ih h2)

theorem gfind_eq_none_of_gdel_nil {α : Type} {m : GoMap α} {k k' : String}
    (h : gdel m k = []) (hne : k' ≠ k) : gfind m k' = none := by
  cases hfound : gfind m k' with
  | none => rfl
  | some v =>
    have hm := mem_gdel (gfind_mem hfound) hne
    rw [h] at hm
    exact nomatch hm

theorem gfind_eq_none_of_gdel_gput_nil {α : Type} {m : GoMap α}
    {k k' : String} {w : α}
    (h : gdel (gput m k w) k = []) (hne : k' ≠ k) : gfind m k' = none := by
  cases hfound : gfind m k' with
  | none => rfl
  | some v =>
    have h1 : (k', v) ∈ gput m k w := mem_gput_ne (gfind_mem hfound) hne
    have h2 := mem_gdel h1 hne
    rw [h] at h2
    exact nomatch h2

theorem findModuleKey_mem {mm : ModuleMap} {M : Module} {id : String}
    (h : findModuleKey mm M = some id) : (id, M) ∈ mm := by
  induction mm with
  | nil => exact nomatch h
  | cons p rest ih =>
    obtain ⟨k, m⟩ := p
    rw [findModuleKey] at h
    by_cases hm : m = M
    · rw [if_pos hm] at h
      cases h
      cases hm
      exact List.mem_cons_self _ _
    · rw [if_neg hm] at h
      exact List.mem_cons_of_mem _ (ih h)

theorem findModuleKey_eq_some {mm : ModuleMap} {M : Module} {s : String}
    (hfind : gfind mm s = some M)
    (hown : ∀ k m', (k, m') ∈ mm → m' = M → k = s) :
    findModuleKey mm M = some s := by
  induction mm with
  | nil => exact nomatch hfind
  | cons p rest ih =>
    obtain ⟨k, m⟩ := p
    by_cases hm : m = M
    · rw [findModuleKey, if_pos hm, hown k m (List.mem_cons_self _ _) hm]
    · rw [findModuleKey, if_neg hm]
      rw [gfind] at hfind
      by_cases hk : k = s
      · rw [if_pos hk] at hfind
        exact absurd (Option.some.inj hfind) hm
      · rw [if_neg hk] at hfind
        exact ih hfind (fun k' m' hmem => hown k' m' (List.mem_cons_of_mem _ hmem))

/-! ### The registry invariant -/

/-- Three-level lookup into a by-type map value. -/
def lookup3 (byType : GoMap FullModuleMap) (t g s : String) : Option Module :=
  gfind2 ((gfind byType t).getD []) g s

theorem lookupByType_eq_lookup3 (st : Registry) (t g s : String) :
    lookupByType st t g s = lookup3 st.registeredModulesByType t g s := rfl

/-- All maps of the registry (at every level) have pairwise distinct
keys; Go maps guarantee this by construction. -/
def NodupAll (st : Registry) : Prop :=
  nodupKeys st.registeredModulesByType ∧
  (∀ t fm, gfind st.registeredModulesByType t = some fm →
    nodupKeys fm ∧ ∀ g mm, gfind fm g = some mm → nodupKeys mm) ∧
  nodupKeys st.registeredModulesById ∧
  (∀ g mm, gfind st.registeredModulesById g = some mm → nodupKeys mm)

/-- The indices never retain empty containers: every bucket present at
any level of either index is nonempty. -/
def NoEmptyBuckets (st : Registry) : Prop :=
  (∀ t fm, gfind st.registeredModulesByType t = some fm →
    fm ≠ [] ∧ ∀ g mm, gfind fm g = some mm → mm ≠ []) ∧
  (∀ g mm, gfind st.registeredModulesById g = some mm → mm ≠ [])

/-- The invariant maintained by all registry operations: unique keys, no
empty buckets, every stored module sits under its own identity keys, and
the two indices are coherent in both directions. -/
structure Wf (st : Registry) : Prop where
  nodup : NodupAll st
  noEmpty : NoEmptyBuckets st
  ownType : ∀ t g s m, lookupByType st t g s = some m →
    t = m.moduleType ∧ g = m.genericId ∧ s = m.specificId
  ownId : ∀ g s m, lookupById st g s = some m →
    g = m.genericId ∧ s = m.specificId
  typeToId : ∀ t g s m, lookupByType st t g s = some m →
    lookupById st g s = some m
  idToType : ∀ g s m, lookupById st g s = some m →
    lookupByType st m.moduleType g s = some m

/-- Registry states reachable from the initial state by sequences of
register and unregister calls. -/
inductive Reachable : Registry → Prop where
  | init : Reachable initRegistry
  | register (st : Registry) (M : Module) :
      Reachable st → Reachable (RegisterModule st M).state
  | unregister (st : Registry) (M : Module) :
      Reachable st → Reachable (UnregisterModule st M).state

theorem wf_init : Wf initRegistry := by
  refine ⟨⟨?_, ?_, ?_, ?_⟩, ⟨?_, ?_⟩, ?_, ?_, ?_, ?_⟩
  · simp [initRegistry, nodupKeys]
  · intro t fm h; simp [initRegistry, gfind] at h
  · simp [initRegistry, nodupKeys]
  · intro g mm h; simp [initRegistry, gfind] at h
  · intro t fm h; simp [initRegistry, gfind] at h
  · intro g mm h; simp [initRegistry, gfind] at h
  · intro t g s m h; simp [lookupByType, gfind2, initRegistry, gfind] at h
  · intro g s m h; simp [lookupById, gfind2, initRegistry, gfind] at h
  · intro t g s m h; simp [lookupByType, gfind2, initRegistry, gfind] at h
  · intro g s m h; simp [lookupById, gfind2, initRegistry, gfind] at h

theorem nodup_getD {α : Type} {m : GoMap (GoMap α)} {k : String}
    (h : ∀ k' b, gfind m k' = some b → nodupKeys b) :
    nodupKeys ((gfind m k).getD []) := by
  cases hq : gfind m k with
  | none => simp [nodupKeys]
  | some b => simpa using h k b hq

/-! ### The invariant is preserved by registration -/

theorem nodupAll_register (st : Registry) (M : Module)
    (habs : lookupById st M.genericId M.specificId = none)
    (hhook : M.registerResult = none)
    (hnd : NodupAll st) : NodupAll (RegisterModule st M).state := by
  obtain ⟨h1, h2, h3, h4⟩ := hnd
  have htm : nodupKeys ((gfind st.registeredModulesByType M.moduleType).getD []) := by
    cases hq : gfind st.registeredModulesByType M.moduleType with
    | none => simp [nodupKeys]
    | some q => simpa using (h2 _ q hq).1
  have htminner : ∀ g' mm,
      gfind ((gfind st.registeredModulesByType M.moduleType).getD []) g'
        = some mm → nodupKeys mm := by
    cases hq : gfind st.registeredModulesByType M.moduleType with
    | none => intro g' mm h; simp [gfind] at h
    | some q =>
      intro g' mm h
      exact (h2 _ q hq).2 g' mm (by simpa using h)
  rw [registerModule_success_eq st M habs hhook]
  refine ⟨?_, ?_, ?_, ?_⟩
  · exact nodup_gput _ _ h1
  · intro t fm hfm
    rcases gfind_gput_cases hfm with ⟨ht, rfl⟩ | ⟨ht, hfm'⟩
    · constructor
      · exact nodup_gput _ _ htm
      · intro g mm hmm
        rcases gfind_gput_cases hmm with ⟨hg, rfl⟩ | ⟨hg, hmm'⟩
        · refine nodup_gput _ _ ?_
          cases hq2 : gfind ((gfind st.registeredModulesByType
              M.moduleType).getD []) M.genericId with
          | none => simp [nodupKeys]
          | some mm2 => simpa using htminner _ mm2 hq2
        · exact htminner _ mm hmm'
    · exact h2 _ fm hfm'
  · exact nodup_gput _ _ h3
  · intro g mm hmm
    rcases gfind_gput_cases hmm with ⟨hg, rfl⟩ | ⟨hg, hmm'⟩
    · refine nodup_gput _ _ ?_
      cases hq : gfind st.registeredModulesById M.genericId with
      | none => simp [nodupKeys]
      | some q => simpa using h4 _ q hq
    · exact h4 _ mm hmm'

theorem noEmpty_register (st : Registry) (M : Module)
    (habs : lookupById st M.genericId M.specificId = none)
    (hhook : M.registerResult = none)
    (hne : NoEmptyBuckets st) : NoEmptyBuckets (RegisterModule st M).state := by
  obtain ⟨h1, h2⟩ := hne
  have htinner : ∀ g' mm,
      gfind ((gfind st.registeredModulesByType M.moduleType).getD []) g'
        = some mm → mm ≠ [] := by
    cases hq : gfind st.registeredModulesByType M.moduleType with
    | none => intro g' mm h; simp [gfind] at h
    | some q =>
      intro g' mm h
      exact (h1 _ q hq).2 g' mm (by simpa using h)
  rw [registerModule_success_eq st M habs hhook]
  refine ⟨?_, ?_⟩
  · intro t fm hfm
    rcases gfind_gput_cases hfm with ⟨ht, rfl⟩ | ⟨ht, hfm'⟩
    · refine ⟨gput_ne_nil _ _ _, ?_⟩
      intro g mm hmm
      rcases gfind_gput_cases hmm with ⟨hg, rfl⟩ | ⟨hg, hmm'⟩
      · exact gput_ne_nil _ _ _
      · exact htinner _ mm hmm'
    · exact h1 _ fm hfm'
  · intro g mm hmm
    rcases gfind_gput_cases hmm with ⟨hg, rfl⟩ | ⟨hg, hmm'⟩
    · exact gput_ne_nil _ _ _
    · exact h2 _ mm hmm'

theorem wf_register (st : Registry) (M : Module) (hwf : Wf st) :
    Wf (RegisterModule st M).state := by
  cases habs : lookupById st M.genericId M.specificId with
  | some m =>
    rw [register_collision_eq st M (by rw [habs]; rfl)]
    exact hwf
  | none =>
    cases hhook : M.registerResult with
    | some e =>
      rw [register_hook_failure_eq st M e habs hhook]
      exact hwf
    | none =>
      refine ⟨nodupAll_register st M habs hhook hwf.nodup,
        noEmpty_register st M habs hhook hwf.noEmpty, ?_, ?_, ?_, ?_⟩
      · intro t' g' s' m hm
        by_cases htr : t' = M.moduleType ∧ g' = M.genericId ∧ s' = M.specificId
        · obtain ⟨rfl, rfl, rfl⟩ := htr
          rw [lookupByType_register_self st M habs hhook] at hm
          cases hm
          exact ⟨rfl, rfl, rfl⟩
        · rw [lookupByType_register_other st M t' g' s' habs hhook htr] at hm
          exact hwf.ownType t' g' s' m hm
      · intro g' s' m hm
        by_cases hgr : g' = M.genericId ∧ s' = M.specificId
        · obtain ⟨rfl, rfl⟩ := hgr
          rw [lookupById_register_self st M habs hhook] at hm
          cases hm
          exact ⟨rfl, rfl⟩
        · rw [lookupById_register_other st M g' s' habs hhook hgr] at hm
          exact hwf.ownId g' s' m hm
      · intro t' g' s' m hm
        by_cases htr : t' = M.moduleType ∧ g' = M.genericId ∧ s' = M.specificId
        · obtain ⟨rfl, rfl, rfl⟩ := htr
          rw [lookupByType_register_self st M habs hhook] at hm
          cases hm
          exact lookupById_register_self st M habs hhook
        · rw [lookupByType_register_other st M t' g' s' habs hhook htr] at hm
          have hold := hwf.typeToId t' g' s' m hm
          have hgr : ¬(g' = M.genericId ∧ s' = M.specificId) := by
            rintro ⟨rfl, rfl⟩
            rw [hold] at habs
            exact nomatch habs
          rw [lookupById_register_other st M g' s' habs hhook hgr]
          exact hold
      · intro g' s' m hm
        by_cases hgr : g' = M.genericId ∧ s' = M.specificId
        · obtain ⟨rfl, rfl⟩ := hgr
          rw [lookupById_register_self st M habs hhook] at hm
          cases hm
          exact lookupByType_register_self st M habs hhook
        · rw [lookupById_register_other st M g' s' habs hhook hgr] at hm
          have hold := hwf.idToType g' s' m hm
          have htr : ¬(m.moduleType = M.moduleType ∧ g' = M.genericId
              ∧ s' = M.specificId) := by
            rintro ⟨h1, rfl, rfl⟩
            exact hgr ⟨rfl, rfl⟩
          rw [lookupByType_register_other st M m.moduleType g' s' habs hhook htr]
          exact hold

/-! ### Effect of removal on the by-id index -/

theorem gfind2_removeFromIdIndex_self (byId : FullModuleMap) (g s : String) :
    gfind2 (removeFromIdIndex byId g s) g s = none := by
  simp only [removeFromIdIndex]
  by_cases hl : (prunedIdBucket byId g s).length = 0
  · rw [if_pos hl, gfind2, gfind_gdel_self]
    rfl
  · rw [if_neg hl, gfind2, gfind_gput_self, Option.getD_some, prunedIdBucket,
      gfind_gdel_self]

theorem gfind2_removeFromIdIndex_other (byId : FullModuleMap) (g s g' s' : String)
    (hne : ¬(g' = g ∧ s' = s)) :
    gfind2 (removeFromIdIndex byId g s) g' s' = gfind2 byId g' s' := by
  simp only [removeFromIdIndex]
  by_cases hg : g' = g
  · subst hg
    have hs : s' ≠ s := fun h => hne ⟨rfl, h⟩
    by_cases hl : (prunedIdBucket byId g' s).length = 0
    · rw [if_pos hl, gfind2, gfind_gdel_self]
      have hnone : gfind ((gfind byId g').getD []) s' = none :=
        gfind_eq_none_of_gdel_nil (List.length_eq_zero.mp hl) hs
      rw [gfind2, hnone]
      rfl
    · rw [if_neg hl, gfind2, gfind_gput_self, Option.getD_some, prunedIdBucket,
        gfind_gdel_ne _ _ _ hs, gfind2]
  · by_cases hl : (prunedIdBucket byId g s).length = 0
    · rw [if_pos hl, gfind2, gfind_gdel_ne _ _ _ hg, gfind_gput_ne _ _ _ _ hg,
        gfind2]
    · rw [if_neg hl, gfind2, gfind_gput_ne _ _ _ _ hg, gfind2]

theorem count_removeFromIdIndex (byId : FullModuleMap) (g s : String)
    (b : ModuleMap) (v : Module)
    (hnd : nodupKeys byId) (hb : gfind byId g = some b)
    (hndb : nodupKeys b) (hv : gfind b s = some v) :
    countFullModuleMap byId
      = countFullModuleMap (removeFromIdIndex byId g s) + 1 := by
  simp only [removeFromIdIndex, prunedIdBucket, hb, Option.getD_some]
  have e3 : b.length = (gdel b s).length + 1 := length_gdel_some hndb hv
  have e1 := countFullModuleMap_gput byId g (gdel b s)
  rw [hb, Option.getD_some] at e1
  by_cases hl : (gdel b s).length = 0
  · rw [if_pos hl]
    have e2 := countFullModuleMap_gdel (gput byId g (gdel b s)) g
      (nodup_gput _ _ hnd)
    rw [gfind_gput_self, Option.getD_some] at e2
    omega
  · rw [if_neg hl]
    omega

theorem nodup_removeFromIdIndex (byId : FullModuleMap) (g s : String)
    (hnd : nodupKeys byId)
    (h : ∀ g' mm, gfind byId g' = some mm → nodupKeys mm) :
    nodupKeys (removeFromIdIndex byId g s) ∧
    ∀ g' mm, gfind (removeFromIdIndex byId g s) g' = some mm →
      nodupKeys mm := by
  constructor
  · simp only [removeFromIdIndex]
    by_cases hl : (prunedIdBucket byId g s).length = 0
    · rw [if_pos hl]
      exact nodup_gdel _ (nodup_gput _ _ hnd)
    · rw [if_neg hl]
      exact nodup_gput _ _ hnd
  · intro g' mm hmm
    simp only [removeFromIdIndex] at hmm
    by_cases hl : (prunedIdBucket byId g s).length = 0
    · rw [if_pos hl] at hmm
      obtain ⟨hg', hmm'⟩ := gfind_gdel_cases hmm
      rcases gfind_gput_cases hmm' with ⟨hg2, rfl⟩ | ⟨hg2, hmm2⟩
      · exact nodup_gdel _ (nodup_getD h)
      · exact h _ mm hmm2
    · rw [if_neg hl] at hmm
      rcases gfind_gput_cases hmm with ⟨hg2, rfl⟩ | ⟨hg2, hmm2⟩
      · exact nodup_gdel _ (nodup_getD h)
      · exact h _ mm hmm2

theorem noEmpty_removeFromIdIndex (byId : FullModuleMap) (g s : String)
    (h : ∀ g' mm, gfind byId g' = some mm → mm ≠ []) :
    ∀ g' mm, gfind (removeFromIdIndex byId g s) g' = some mm → mm ≠ [] := by
  intro g' mm hmm
  simp only [removeFromIdIndex] at hmm
  by_cases hl : (prunedIdBucket byId g s).length = 0
  · rw [if_pos hl] at hmm
    obtain ⟨hg', hmm'⟩ := gfind_gdel_cases hmm
    rcases gfind_gput_cases hmm' with ⟨hg2, rfl⟩ | ⟨hg2, hmm2⟩
    · exact absurd hg2 hg'
    · exact h _ mm hmm2
  · rw [if_neg hl] at hmm
    rcases gfind_gput_cases hmm with ⟨hg2, rfl⟩ | ⟨hg2, hmm2⟩
    · intro hnil
      rw [hnil] at hl
      exact hl rfl
    · exact h _ mm hmm2

/-! ### Effect of removal on the by-type index -/

theorem lookup3_removeT_self (byType : GoMap FullModuleMap) (t g id : String)
    (fm0 : FullModuleMap) (mm0 : ModuleMap)
    (hfm : gfind byType t = some fm0) (hmm : gfind fm0 g = some mm0) :
    lookup3 (removeFromTypeIndex byType t g id) t g id = none := by
  simp only [removeFromTypeIndex, prunedGenMap, typeBucket, hfm,
    Option.getD_some, hmm]
  by_cases h1 : (gdel mm0 id).length = 0
  · rw [if_pos h1]
    by_cases h2 : (gdel (gput fm0 g (gdel mm0 id)) g).length = 0
    · rw [if_pos h2, lookup3, gfind_gdel_self]
      rfl
    · rw [if_neg h2, lookup3, gfind_gput_self, Option.getD_some, gfind2,
        gfind_gdel_self]
      rfl
  · rw [if_neg h1]
    have h2 : ¬((gput fm0 g (gdel mm0 id)).length = 0) := fun hz =>
      gput_ne_nil fm0 g _ (List.length_eq_zero.mp hz)
    rw [if_neg h2, lookup3, gfind_gput_self, Option.getD_some, gfind2,
      gfind_gput_self, Option.getD_some, gfind_gdel_self]

theorem lookup3_removeT_other (byType : GoMap FullModuleMap) (t g id : String)
    (fm0 : FullModuleMap) (mm0 : ModuleMap)
    (hfm : gfind byType t = some fm0) (hmm : gfind fm0 g = some mm0)
    (t' g' s' : String) (hne : ¬(t' = t ∧ g' = g ∧ s' = id)) :
    lookup3 (removeFromTypeIndex byType t g id) t' g' s'
      = lookup3 byType t' g' s' := by
  simp only [removeFromTypeIndex, prunedGenMap, typeBucket, hfm,
    Option.getD_some, hmm]
  by_cases ht : t' = t
  · subst ht
    have hrhs : lookup3 byType t' g' s' = gfind2 fm0 g' s' := by
      rw [lookup3, hfm, Option.getD_some]
    rw [hrhs]
    by_cases hg : g' = g
    · subst hg
      have hs : s' ≠ id := fun h => hne ⟨rfl, rfl, h⟩
      have hrhs2 : gfind2 fm0 g' s' = gfind mm0 s' := by
        rw [gfind2, hmm, Option.getD_some]
      rw [hrhs2]
      by_cases h1 : (gdel mm0 id).length = 0
      · have hmm0 : gfind mm0 s' = none :=
          gfind_eq_none_of_gdel_nil (List.length_eq_zero.mp h1) hs
        rw [if_pos h1, hmm0]
        by_cases h2 : (gdel (gput fm0 g' (gdel mm0 id)) g').length = 0
        · rw [if_pos h2, lookup3, gfind_gdel_self]
          rfl
        · rw [if_neg h2, lookup3, gfind_gput_self, Option.getD_some, gfind2,
            gfind_gdel_self]
          rfl
      · rw [if_neg h1]
        have h2 : ¬((gput fm0 g' (gdel mm0 id)).length = 0) := fun hz =>
          gput_ne_nil fm0 g' _ (List.length_eq_zero.mp hz)
        rw [if_neg h2, lookup3, gfind_gput_self, Option.getD_some, gfind2,
          gfind_gput_self, Option.getD_some, gfind_gdel_ne _ _ _ hs]
    · by_cases h1 : (gdel mm0 id).length = 0
      · by_cases h2 : (gdel (gput fm0 g (gdel mm0 id)) g).length = 0
        · have hfg : gfind fm0 g' = none :=
            gfind_eq_none_of_gdel_gput_nil (List.length_eq_zero.mp h2) hg
          rw [if_pos h1, if_pos h2, lookup3, gfind_gdel_self, gfind2, gfind2, hfg]
          rfl
        · rw [if_pos h1, if_neg h2, lookup3, gfind_gput_self, Option.getD_some,
            gfind2, gfind_gdel_ne _ _ _ hg, gfind_gput_ne _ _ _ _ hg, gfind2]
      · rw [if_neg h1]
        have h2 : ¬((gput fm0 g (gdel mm0 id)).length = 0) := fun hz =>
          gput_ne_nil fm0 g _ (List.length_eq_zero.mp hz)
        rw [if_neg h2, lookup3, gfind_gput_self, Option.getD_some, gfind2,
          gfind_gput_ne _ _ _ _ hg, gfind2]
  · by_cases h2 : (prunedGenMap byType t g id).length = 0
    · have h2' : ((if (gdel mm0 id).length = 0
          then gdel (gput fm0 g (gdel mm0 id)) g
          else gput fm0 g (gdel mm0 id)) : FullModuleMap).length = 0 := by
        have := h2
        simp only [prunedGenMap, typeBucket, hfm, Option.getD_some, hmm] at this
        exact this
      rw [if_pos h2', lookup3, gfind_gdel_ne _ _ _ ht,
        gfind_gput_ne _ _ _ _ ht, lookup3]
    · have h2' : ¬((if (gdel mm0 id).length = 0
          then gdel (gput fm0 g (gdel mm0 id)) g
          else gput fm0 g (gdel mm0 id)) : FullModuleMap).length = 0 := by
        intro hz
        apply h2
        simp only [prunedGenMap, typeBucket, hfm, Option.getD_some, hmm]
        exact hz
      rw [if_neg h2', lookup3, gfind_gput_ne _ _ _ _ ht, lookup3]

theorem nodup_removeFromTypeIndex (byType : GoMap FullModuleMap)
    (t g id : String) (hnd : nodupKeys byType)
    (h : ∀ t' fm, gfind byType t' = some fm →
      nodupKeys fm ∧ ∀ g' mm, gfind fm g' = some mm → nodupKeys mm) :
    nodupKeys (removeFromTypeIndex byType t g id) ∧
    ∀ t' fm, gfind (removeFromTypeIndex byType t g id) t' = some fm →
      nodupKeys fm ∧ ∀ g' mm, gfind fm g' = some mm → nodupKeys mm := by
  have hfm0 : nodupKeys ((gfind byType t).getD []) ∧
      ∀ g' mm, gfind ((gfind byType t).getD []) g' = some mm →
        nodupKeys mm := by
    cases hq : gfind byType t with
    | none =>
      refine ⟨by simp [nodupKeys], ?_⟩
      intro g' mm hmm
      simp [gfind] at hmm
    | some q => simpa using h t q hq
  have htb_nodup : nodupKeys (typeBucket byType t g) := by
    rw [typeBucket]
    exact nodup_getD hfm0.2
  have hpruned_nodup : nodupKeys (prunedGenMap byType t g id) := by
    simp only [prunedGenMap]
    by_cases h1 : (gdel (typeBucket byType t g) id).length = 0
    · rw [if_pos h1]
      exact nodup_gdel _ (nodup_gput _ _ hfm0.1)
    · rw [if_neg h1]
      exact nodup_gput _ _ hfm0.1
  have hpruned_inner : ∀ g' mm,
      gfind (prunedGenMap byType t g id) g' = some mm → nodupKeys mm := by
    intro g' mm hmm
    simp only [prunedGenMap] at hmm
    by_cases h1 : (gdel (typeBucket byType t g) id).length = 0
    · rw [if_pos h1] at hmm
      obtain ⟨hg', hmm'⟩ := gfind_gdel_cases hmm
      rcases gfind_gput_cases hmm' with ⟨hg2, rfl⟩ | ⟨hg2, hmm2⟩
      · exact nodup_gdel _ htb_nodup
      · exact hfm0.2 _ mm hmm2
    · rw [if_neg h1] at hmm
      rcases gfind_gput_cases hmm with ⟨hg2, rfl⟩ | ⟨hg2, hmm2⟩
      · exact nodup_gdel _ htb_nodup
      · exact hfm0.2 _ mm hmm2
  constructor
  · simp only [removeFromTypeIndex]
    by_cases h2 : (prunedGenMap byType t g id).length = 0
    · rw [if_pos h2]
      exact nodup_gdel _ (nodup_gput _ _ hnd)
    · rw [if_neg h2]
      exact nodup_gput _ _ hnd
  · intro t' fm hfm'
    simp only [removeFromTypeIndex] at hfm'
    by_cases h2 : (prunedGenMap byType t g id).length = 0
    · rw [if_pos h2] at hfm'
      obtain ⟨ht', hfm2⟩ := gfind_gdel_cases hfm'
      rcases gfind_gput_cases hfm2 with ⟨ht2, rfl⟩ | ⟨ht2, hfm3⟩
      · exact ⟨hpruned_nodup, hpruned_inner⟩
      · exact h _ fm hfm3
    · rw [if_neg h2] at hfm'
      rcases gfind_gput_cases hfm' with ⟨ht2, rfl⟩ | ⟨ht2, hfm3⟩
      · exact ⟨hpruned_nodup, hpruned_inner⟩
      · exact h _ fm hfm3

theorem noEmpty_removeFromTypeIndex (byType : GoMap FullModuleMap)
    (t g id : String)
    (h : ∀ t' fm, gfind byType t' = some fm →
      fm ≠ [] ∧ ∀ g' mm, gfind fm g' = some mm → mm ≠ []) :
    ∀ t' fm, gfind (removeFromTypeIndex byType t g id) t' = some fm →
      fm ≠ [] ∧ ∀ g' mm, gfind fm g' = some mm → mm ≠ [] := by
  have hfm0 : ∀ g' mm, gfind ((gfind byType t).getD []) g' = some mm →
      mm ≠ [] := by
    cases hq : gfind byType t with
    | none =>
      intro g' mm hmm
      simp [gfind] at hmm
    | some q =>
      intro g' mm hmm
      exact (h t q hq).2 g' mm (by simpa using hmm)
  have hpruned_inner : ∀ g' mm,
      gfind (prunedGenMap byType t g id) g' = some mm → mm ≠ [] := by
    intro g' mm hmm
    simp only [prunedGenMap] at hmm
    by_cases h1 : (gdel (typeBucket byType t g) id).length = 0
    · rw [if_pos h1] at hmm
      obtain ⟨hg', hmm'⟩ := gfind_gdel_cases hmm
      rcases gfind_gput_cases hmm' with ⟨hg2, rfl⟩ | ⟨hg2, hmm2⟩
      · exact absurd hg2 hg'
      · exact hfm0 _ mm hmm2
    · rw [if_neg h1] at hmm
      rcases gfind_gput_cases hmm with ⟨hg2, rfl⟩ | ⟨hg2, hmm2⟩
      · intro hnil
        rw [hnil] at h1
        exact h1 rfl
      · exact hfm0 _ mm hmm2
  intro t' fm hfm'
  simp only [removeFromTypeIndex] at hfm'
  by_cases h2 : (prunedGenMap byType t g id).length = 0
  · rw [if_pos h2] at hfm'
    obtain ⟨ht', hfm2⟩ := gfind_gdel_cases hfm'
    rcases gfind_gput_cases hfm2 with ⟨ht2, rfl⟩ | ⟨ht2, hfm3⟩
    · exact absurd ht2 ht'
    · exact h _ fm hfm3
  · rw [if_neg h2] at hfm'
    rcases gfind_gput_cases hfm' with ⟨ht2, rfl⟩ | ⟨ht2, hfm3⟩
    · refine ⟨?_, hpruned_inner⟩
      intro hnil
      rw [hnil] at h2
      exact h2 rfl
    · exact h _ fm hfm3

/-! ### Characterization of successful unregistration -/

theorem unregister_found_eq (st : Registry) (M : Module) (id : String)
    (hfk : findModuleKey (typeBucket st.registeredModulesByType M.moduleType
      M.genericId) M = some id) :
    UnregisterModule st M =
      ⟨⟨removeFromTypeIndex st.registeredModulesByType M.moduleType
          M.genericId id,
        removeFromIdIndex st.registeredModulesById M.genericId M.specificId⟩,
        none, []⟩ := by
  rw [UnregisterModule]
  simp [hfk]

theorem unregister_found_facts (st : Registry) (M : Module) (id : String)
    (hwf : Wf st)
    (hfk : findModuleKey (typeBucket st.registeredModulesByType M.moduleType
      M.genericId) M = some id) :
    id = M.specificId ∧
    (∃ fm0 mm0, gfind st.registeredModulesByType M.moduleType = some fm0 ∧
      gfind fm0 M.genericId = some mm0 ∧ gfind mm0 M.specificId = some M) ∧
    (∃ b0, gfind st.registeredModulesById M.genericId = some b0 ∧
      gfind b0 M.specificId = some M) := by
  have hmem := findModuleKey_mem hfk
  cases hq : gfind st.registeredModulesByType M.moduleType with
  | none =>
    rw [typeBucket, hq] at hmem
    simp [gfind] at hmem
  | some fm0 =>
    cases hq2 : gfind fm0 M.genericId with
    | none =>
      rw [typeBucket, hq, Option.getD_some, hq2] at hmem
      simp at hmem
    | some mm0 =>
      rw [typeBucket, hq, Option.getD_some, hq2, Option.getD_some] at hmem
      have hnd_mm0 : nodupKeys mm0 := (hwf.nodup.2.1 _ fm0 hq).2 _ mm0 hq2
      have hfind_id : gfind mm0 id = some M := mem_gfind hnd_mm0 hmem
      have hlookup : lookupByType st M.moduleType M.genericId id = some M := by
        rw [lookupByType, gfind2, hq, Option.getD_some, hq2, Option.getD_some]
        exact hfind_id
      have hid_eq : id = M.specificId := (hwf.ownType _ _ _ _ hlookup).2.2
      subst hid_eq
      have hbyid := hwf.typeToId _ _ _ _ hlookup
      cases hq3 : gfind st.registeredModulesById M.genericId with
      | none =>
        rw [lookupById, gfind2, hq3] at hbyid
        simp [gfind] at hbyid
      | some b0 =>
        rw [lookupById, gfind2, hq3, Option.getD_some] at hbyid
        exact ⟨rfl, ⟨fm0, mm0, rfl, hq2, hfind_id⟩, ⟨b0, rfl, hbyid⟩⟩

theorem findModuleKey_of_registered (st : Registry) (M : Module) (hwf : Wf st)
    (hreg : lookupById st M.genericId M.specificId = some M) :
    findModuleKey (typeBucket st.registeredModulesByType M.moduleType
      M.genericId) M = some M.specificId := by
  have hT := hwf.idToType _ _ _ hreg
  cases hq : gfind st.registeredModulesByType M.moduleType with
  | none =>
    rw [lookupByType, gfind2, hq] at hT
    simp [gfind] at hT
  | some fm0 =>
    cases hq2 : gfind fm0 M.genericId with
    | none =>
      rw [lookupByType, gfind2, hq, Option.getD_some, hq2] at hT
      simp [gfind] at hT
    | some mm0 =>
      rw [lookupByType, gfind2, hq, Option.getD_some, hq2, Option.getD_some] at hT
      have htb : typeBucket st.registeredModulesByType M.moduleType M.genericId
          = mm0 := by
        rw [typeBucket, hq, Option.getD_some, hq2, Option.getD_some]
      rw [htb]
      have hnd_mm0 : nodupKeys mm0 := (hwf.nodup.2.1 _ fm0 hq).2 _ mm0 hq2
      apply findModuleKey_eq_some hT
      intro k m' hmem hm'
      rw [hm'] at hmem
      have hfind_k : gfind mm0 k = some M := mem_gfind hnd_mm0 hmem
      have hlookup : lookupByType st M.moduleType M.genericId k = some M := by
        rw [lookupByType, gfind2, hq, Option.getD_some, hq2, Option.getD_some]
        exact hfind_k
      exact (hwf.ownType _ _ _ _ hlookup).2.2

theorem wf_unregister (st : Registry) (M : Module) (hwf : Wf st) :
    Wf (UnregisterModule st M).state := by
  cases hfk : findModuleKey (typeBucket st.registeredModulesByType
      M.moduleType M.genericId) M with
  | none =>
    rw [unregister_not_found_eq st M hfk]
    exact hwf
  | some id =>
    obtain ⟨hid, ⟨fm0, mm0, hq, hq2, hmmfind⟩, ⟨b0, hq3, hbfind⟩⟩ :=
      unregister_found_facts st M id hwf hfk
    subst hid
    have hstate : (UnregisterModule st M).state
        = ⟨removeFromTypeIndex st.registeredModulesByType M.moduleType
            M.genericId M.specificId,
          removeFromIdIndex st.registeredModulesById M.genericId
            M.specificId⟩ := by
      rw [unregister_found_eq st M M.specificId hfk]
    rw [hstate]
    have hndT := hwf.nodup.1
    have hTbk := hwf.nodup.2.1
    have hndI := hwf.nodup.2.2.1
    have hIbk := hwf.nodup.2.2.2
    have hLT_self := lookup3_removeT_self st.registeredModulesByType
      M.moduleType M.genericId M.specificId fm0 mm0 hq hq2
    have hLT_other := fun t' g' s'
        (hne : ¬(t' = M.moduleType ∧ g' = M.genericId ∧ s' = M.specificId)) =>
      lookup3_removeT_other st.registeredModulesByType M.moduleType
        M.genericId M.specificId fm0 mm0 hq hq2 t' g' s' hne
    have hLI_self := gfind2_removeFromIdIndex_self st.registeredModulesById
      M.genericId M.specificId
    have hLI_other := fun g' s'
        (hne : ¬(g' = M.genericId ∧ s' = M.specificId)) =>
      gfind2_removeFromIdIndex_other st.registeredModulesById M.genericId
        M.specificId g' s' hne
    have hnodupT := nodup_removeFromTypeIndex st.registeredModulesByType
      M.moduleType M.genericId M.specificId hndT hTbk
    have hnodupI := nodup_removeFromIdIndex st.registeredModulesById
      M.genericId M.specificId hndI hIbk
    refine ⟨⟨hnodupT.1, hnodupT.2, hnodupI.1, hnodupI.2⟩,
      ⟨noEmpty_removeFromTypeIndex _ _ _ _ hwf.noEmpty.1,
        noEmpty_removeFromIdIndex _ _ _ hwf.noEmpty.2⟩, ?_, ?_, ?_, ?_⟩
    · intro t' g' s' m hm
      have hm' : lookup3 (removeFromTypeIndex st.registeredModulesByType
          M.moduleType M.genericId M.specificId) t' g' s' = some m := hm
      by_cases htr : t' = M.moduleType ∧ g' = M.genericId ∧ s' = M.specificId
      · obtain ⟨rfl, rfl, rfl⟩ := htr
        rw [hLT_self] at hm'
        exact nomatch hm'
      · rw [hLT_other t' g' s' htr] at hm'
        exact hwf.ownType t' g' s' m hm'
    · intro g' s' m hm
      have hm' : gfind2 (removeFromIdIndex st.registeredModulesById
          M.genericId M.specificId) g' s' = some m := hm
      by_cases hgr : g' = M.genericId ∧ s' = M.specificId
      · obtain ⟨rfl, rfl⟩ := hgr
        rw [hLI_self] at hm'
        exact nomatch hm'
      · rw [hLI_other g' s' hgr] at hm'
        exact hwf.ownId g' s' m hm'
    · intro t' g' s' m hm
      have hm' : lookup3 (removeFromTypeIndex st.registeredModulesByType
          M.moduleType M.genericId M.specificId) t' g' s' = some m := hm
      by_cases htr : t' = M.moduleType ∧ g' = M.genericId ∧ s' = M.specificId
      · obtain ⟨rfl, rfl, rfl⟩ := htr
        rw [hLT_self] at hm'
        exact nomatch hm'
      · rw [hLT_other t' g' s' htr] at hm'
        have hm_old : lookupByType st t' g' s' = some m := hm'
        by_cases hgr : g' = M.genericId ∧ s' = M.specificId
        · obtain ⟨rfl, rfl⟩ := hgr
          have hidm : lookupById st M.genericId M.specificId = some m :=
            hwf.typeToId t' M.genericId M.specificId m hm_old
          have hidM : lookupById st M.genericId M.specificId = some M := by
            rw [lookupById, gfind2, hq3, Option.getD_some]
            exact hbfind
          rw [hidm] at hidM
          cases hidM
          have hown := hwf.ownType t' _ _ _ hm_old
          exact absurd ⟨hown.1, rfl, rfl⟩ htr
        · show gfind2 (removeFromIdIndex st.registeredModulesById M.genericId
            M.specificId) g' s' = some m
          rw [hLI_other g' s' hgr]
          exact hwf.typeToId t' g' s' m hm_old
    · intro g' s' m hm
      have hm' : gfind2 (removeFromIdIndex st.registeredModulesById
          M.genericId M.specificId) g' s' = some m := hm
      by_cases hgr : g' = M.genericId ∧ s' = M.specificId
      · obtain ⟨rfl, rfl⟩ := hgr
        rw [hLI_self] at hm'
        exact nomatch hm'
      · rw [hLI_other g' s' hgr] at hm'
        have hm_old : lookupByType st m.moduleType g' s' = some m :=
          hwf.idToType g' s' m hm'
        have htr : ¬(m.moduleType = M.moduleType ∧ g' = M.genericId
            ∧ s' = M.specificId) := by
          rintro ⟨h1, rfl, rfl⟩
          exact hgr ⟨rfl, rfl⟩
        show lookup3 (removeFromTypeIndex st.registeredModulesByType
          M.moduleType M.genericId M.specificId) m.moduleType g' s' = some m
        rw [hLT_other m.moduleType g' s' htr]
        exact hm_old

theorem wf_reachable (st : Registry) (h : Reachable st) : Wf st := by
  induction h with
  | init => exact wf_init
  | register st M h ih => exact wf_register st M ih
  | unregister st M h ih => exact wf_unregister st M ih

/-! ### Concrete modules and registries used as witnesses -/

/-- A plain module whose hooks succeed. -/
def sampleModule : Module :=
  ⟨0, "Sample Module", "1.0.0", "sample", "inst", "sample-type", none, none⟩

/-- The state after registering `sampleModule` in a fresh registry. -/
def sampleRegistry : Registry :=
  (RegisterModule initRegistry sampleModule).state

/-- A distinct module object carrying the same id pair as `sampleModule`. -/
def collidingModule : Module :=
  ⟨1, "Other Module", "2.0.0", "sample", "inst", "other-type", none, none⟩

/-- A module whose `Register()` hook fails. -/
def failingModule : Module :=
  ⟨2, "Failing Module", "1.0.0", "failing", "", "sample-type",
    some (Err.custom "hook failed"), none⟩

/-- A default instance (empty specific id) of class "class". -/
def defaultModule : Module :=
  ⟨3, "Default Module", "1.0.0", "class", "", "T", none, none⟩

/-- A non-default instance of the same class as `defaultModule`. -/
def nondefaultModule : Module :=
  ⟨4, "Alt Module", "1.0.0", "class", "alt", "T", none, none⟩

/-- The state after registering `defaultModule` in a fresh registry. -/
def defaultRegistry : Registry :=
  (RegisterModule initRegistry defaultModule).state

/-- A module all of whose identity strings are empty. -/
def emptyIdModule : Module :=
  ⟨5, "Anon", "0.1", "", "", "", none, none⟩

/-! ### Claims -/

/-- C2: if the pair (GenericId, SpecificId) is already present in the
by-id index, `RegisterModule` fails with a collision error naming both
ids, does not invoke the module's `Register()` hook, and leaves the
registry state unchanged, so the total count and the entry stored for
that pair are unaffected. -/
theorem registerModule_collision (st : Registry) (M : Module)
    (hpresent : (lookupById st M.genericId M.specificId).isSome) :
    RegisterModule st M
        = ⟨st, some (Err.idCollision M.genericId M.specificId), []⟩ ∧
      GetAllModulesCount (RegisterModule st M).state = GetAllModulesCount st ∧
      GetModuleById (RegisterModule st M).state M.genericId M.specificId
        = GetModuleById st M.genericId M.specificId := by
  have h1 := register_collision_eq st M hpresent
  refine ⟨h1, ?_, ?_⟩ <;> rw [h1]

/-- Witness for C2: registering a second module with the id pair of
`sampleModule` fails and changes nothing. -/
theorem registerModule_collision_witness :
    (lookupById sampleRegistry collidingModule.genericId
        collidingModule.specificId).isSome ∧
    (RegisterModule sampleRegistry collidingModule
        = ⟨sampleRegistry,
            some (Err.idCollision collidingModule.genericId
              collidingModule.specificId), []⟩ ∧
      GetAllModulesCount (RegisterModule sampleRegistry collidingModule).state
        = GetAllModulesCount sampleRegistry ∧
      GetModuleById (RegisterModule sampleRegistry collidingModule).state
          collidingModule.genericId collidingModule.specificId
        = GetModuleById sampleRegistry collidingModule.genericId
            collidingModule.specificId) :=
  ⟨by decide, registerModule_collision sampleRegistry collidingModule (by decide)⟩

/-- C3: if the id pair is free but the module's own `Register()` hook
fails, `RegisterModule` returns that same error unchanged and inserts
nothing: the registry state is exactly as before the call. -/
theorem registerModule_hook_failure (st : Registry) (M : Module) (e : Err)
    (habs : lookupById st M.genericId M.specificId = none)
    (hhook : M.registerResult = some e) :
    RegisterModule st M = ⟨st, some e, [HookCall.registerHook M.ref]⟩ :=
  register_hook_failure_eq st M e habs hhook

/-- Witness for C3: registering `failingModule` in a fresh registry
propagates its hook error and leaves the registry empty. -/
theorem registerModule_hook_failure_witness :
    lookupById initRegistry failingModule.genericId
        failingModule.specificId = none ∧
    failingModule.registerResult = some (Err.custom "hook failed") ∧
    RegisterModule initRegistry failingModule
      = ⟨initRegistry, some (Err.custom "hook failed"),
          [HookCall.registerHook failingModule.ref]⟩ :=
  ⟨rfl, rfl,
    registerModule_hook_failure initRegistry failingModule
      (Err.custom "hook failed") rfl rfl⟩

/-- C5: if no entry of the by-type bucket for the module's current type
and generic id is reference-identical to the module, `UnregisterModule`
fails with the error "module not found" and leaves the registry state
completely unchanged. -/
theorem unregisterModule_not_found (st : Registry) (M : Module)
    (habsent : ∀ p ∈ typeBucket st.registeredModulesByType M.moduleType
        M.genericId, p.2 ≠ M) :
    UnregisterModule st M = ⟨st, some Err.moduleNotFound, []⟩ ∧
      Err.message Err.moduleNotFound = "module not found" :=
  ⟨unregister_not_found_eq st M (findModuleKey_eq_none habsent), rfl⟩

/-- Witness for C5: unregistering a never-registered module from the
fresh registry fails with "module not found". -/
theorem unregisterModule_not_found_witness :
    (∀ p ∈ typeBucket initRegistry.registeredModulesByType
        sampleModule.moduleType sampleModule.genericId, p.2 ≠ sampleModule) ∧
    (UnregisterModule initRegistry sampleModule
        = ⟨initRegistry, some Err.moduleNotFound, []⟩ ∧
      Err.message Err.moduleNotFound = "module not found") :=
  ⟨fun p hp => absurd hp (List.not_mem_nil p),
    unregisterModule_not_found initRegistry sampleModule
      (fun p hp => absurd hp (List.not_mem_nil p))⟩

/-- C7 (code bug): the spec and the doc comment on `Module.Unregister`
say the `Unregister()` hook is invoked exactly once by `UnregisterModule`
at removal time, but the removal path never calls it: on every call,
successful or not, the list of invoked hooks is empty — shown here in
general and on a concrete successful removal. -/
theorem unregisterModule_no_hook :
    (∀ (st : Registry) (M : Module), (UnregisterModule st M).hookCalls = []) ∧
    (UnregisterModule sampleRegistry sampleModule).err = none ∧
    (UnregisterModule sampleRegistry sampleModule).hookCalls = [] := by
  refine ⟨fun st M => ?_, by decide, by decide⟩
  cases hfk : findModuleKey (typeBucket st.registeredModulesByType
      M.moduleType M.genericId) M with
  | none => simp [UnregisterModule, hfk]
  | some id => simp [UnregisterModule, hfk]

/-- C9: the base implementation's `Configure` succeeds unconditionally,
replaces the stored parameter map, and never touches readiness; a freshly
constructed `GenericModule` is not ready. -/
theorem genericModule_configure_spec (gm : GenericModule) (p : ParameterMap)
    (name version genericId specificId moduleType : String) :
    (gm.Configure p).2 = none ∧
    (gm.Configure p).1.Parameters = p ∧
    (gm.Configure p).1.Ready = gm.Ready ∧
    (NewGenericModule name version genericId specificId moduleType).Ready
      = false :=
  ⟨rfl, rfl, rfl, rfl⟩

/-- C8: the default module of a class is exactly the entry with the empty
specific id, and successfully registering a module of the same class with
a non-empty specific id does not change what the default lookup returns. -/
theorem getDefaultModule_spec (st : Registry) (M : Module) (g : String)
    (hok : (RegisterModule st M).err = none)
    (hgen : M.genericId = g) (hspec : M.specificId ≠ "") :
    GetDefaultModuleByGenericId st g = GetModuleById st g "" ∧
    GetDefaultModuleByGenericId (RegisterModule st M).state g
      = GetDefaultModuleByGenericId st g := by
  have habs : lookupById st M.genericId M.specificId = none := by
    cases h : lookupById st M.genericId M.specificId with
    | none => rfl
    | some m =>
      rw [RegisterModule] at hok
      simp [h] at hok
  have hhook : M.registerResult = none := by
    cases h2 : M.registerResult with
    | none => rfl
    | some e =>
      rw [RegisterModule] at hok
      simp [habs, h2] at hok
  refine ⟨rfl, ?_⟩
  rw [GetDefaultModuleByGenericId, GetDefaultModuleByGenericId]
  exact lookupById_register_other st M g "" habs hhook
    (fun hand => hspec hand.2.symm)

/-- Witness for C8: after registering the default instance of class
"class", also registering a non-default instance leaves the default
lookup unchanged. -/
theorem getDefaultModule_spec_witness :
    (RegisterModule defaultRegistry nondefaultModule).err = none ∧
    (GetDefaultModuleByGenericId defaultRegistry "class"
        = GetModuleById defaultRegistry "class" "" ∧
      GetDefaultModuleByGenericId
          (RegisterModule defaultRegistry nondefaultModule).state "class"
        = GetDefaultModuleByGenericId defaultRegistry "class") :=
  ⟨by decide,
    getDefaultModule_spec defaultRegistry nondefaultModule "class"
      (by decide) rfl (by decide)⟩

/-- C10: `RegisterModule` performs no validation of identity fields: a
module whose identity strings are all empty registers successfully when
the pair of empty strings is free, and is then returned by
`GetDefaultModuleByGenericId` of the empty string. -/
theorem registerModule_empty_ids (st : Registry) (M : Module)
    (hg : M.genericId = "") (hs : M.specificId = "") (ht : M.moduleType = "")
    (hhook : M.registerResult = none)
    (habs : lookupById st "" "" = none) :
    (RegisterModule st M).err = none ∧
    GetDefaultModuleByGenericId (RegisterModule st M).state "" = some M := by
  have habs' : lookupById st M.genericId M.specificId = none := by
    rw [hg, hs]; exact habs
  constructor
  · rw [registerModule_success_eq st M habs' hhook]
  · have h := lookupById_register_self st M habs' hhook
    rw [hg, hs] at h
    exact h

/-- When no bucket of either index is empty, a per-type count of zero
means the whole type bucket is absent (the Go nil map), not a bucket of
zero-length children. -/
theorem countByType_zero_of_noEmpty (st : Registry) (t : String)
    (hne : NoEmptyBuckets st) (hz : GetModuleCountByType st t = 0) :
    GetModulesByType st t = none := by
  cases hq : GetModulesByType st t with
  | none => rfl
  | some fm =>
    obtain ⟨hfm_ne, hinner⟩ := hne.1 t fm hq
    cases fm with
    | nil => exact absurd rfl hfm_ne
    | cons p rest =>
      obtain ⟨k, mm⟩ := p
      have hfind : gfind ((k, mm) :: rest) k = some mm := by
        rw [gfind, if_pos rfl]
      have hmm_ne := hinner k mm hfind
      rw [GetModuleCountByType, hq] at hz
      simp only [Option.getD_some] at hz
      rw [countFullModuleMap_cons2] at hz
      have hmm0 : mm.length = 0 := by omega
      exact absurd (List.length_eq_zero.mp hmm0) hmm_ne

/-- C1: registering a module whose id pair is free and whose `Register()`
hook succeeds, succeeds; immediately afterwards the module is retrievable
through both lookup paths (by id and inside the by-type result under its
generic and specific ids), the total count increases by exactly 1, and
the per-type count for its type increases by exactly 1. -/
theorem registerModule_success_spec (st : Registry) (M : Module)
    (hreach : Reachable st)
    (habs : lookupById st M.genericId M.specificId = none)
    (hhook : M.registerResult = none) :
    (RegisterModule st M).err = none ∧
    GetModuleById (RegisterModule st M).state M.genericId M.specificId
      = some M ∧
    gfind2 ((GetModulesByType (RegisterModule st M).state
        M.moduleType).getD []) M.genericId M.specificId = some M ∧
    GetAllModulesCount (RegisterModule st M).state
      = GetAllModulesCount st + 1 ∧
    GetModuleCountByType (RegisterModule st M).state M.moduleType
      = GetModuleCountByType st M.moduleType + 1 := by
  have hwf := wf_reachable st hreach
  refine ⟨?_, ?_, ?_, ?_, ?_⟩
  · rw [registerModule_success_eq st M habs hhook]
  · exact lookupById_register_self st M habs hhook
  · exact lookupByType_register_self st M habs hhook
  · rw [registerModule_success_eq st M habs hhook]
    simp only [GetAllModulesCount, GetAllModules]
    have e1 := countFullModuleMap_gput st.registeredModulesById M.genericId
      (gput ((gfind st.registeredModulesById M.genericId).getD [])
        M.specificId M)
    have e2 : gfind ((gfind st.registeredModulesById M.genericId).getD [])
        M.specificId = none := habs
    have e3 := length_gput_none M e2
    omega
  · rw [registerModule_success_eq st M habs hhook]
    simp only [GetModuleCountByType, GetModulesByType]
    have e2 : gfind ((gfind ((gfind st.registeredModulesByType
        M.moduleType).getD []) M.genericId).getD []) M.specificId = none := by
      cases hcs : gfind ((gfind ((gfind st.registeredModulesByType
          M.moduleType).getD []) M.genericId).getD []) M.specificId with
      | none => rfl
      | some m' =>
        have hT : lookupByType st M.moduleType M.genericId M.specificId
            = some m' := hcs
        have hcontra := hwf.typeToId _ _ _ _ hT
        rw [habs] at hcontra
        exact nomatch hcontra
    have e1 := countFullModuleMap_gput
      ((gfind st.registeredModulesByType M.moduleType).getD []) M.genericId
      (gput ((gfind ((gfind st.registeredModulesByType M.moduleType).getD [])
        M.genericId).getD []) M.specificId M)
    have e3 := length_gput_none M e2
    rw [gfind_gput_self, Option.getD_some]
    omega

/-- Witness for C1: registering `sampleModule` in the fresh registry. -/
theorem registerModule_success_spec_witness :
    (RegisterModule initRegistry sampleModule).err = none ∧
    GetModuleById (RegisterModule initRegistry sampleModule).state
      sampleModule.genericId sampleModule.specificId = some sampleModule ∧
    gfind2 ((GetModulesByType (RegisterModule initRegistry sampleModule).state
        sampleModule.moduleType).getD [])
      sampleModule.genericId sampleModule.specificId = some sampleModule ∧
    GetAllModulesCount (RegisterModule initRegistry sampleModule).state
      = GetAllModulesCount initRegistry + 1 ∧
    GetModuleCountByType (RegisterModule initRegistry sampleModule).state
        sampleModule.moduleType
      = GetModuleCountByType initRegistry sampleModule.moduleType + 1 :=
  registerModule_success_spec initRegistry sampleModule Reachable.init rfl rfl

/-- C4: unregistering a registered module (identity unchanged) succeeds;
afterwards the module is absent from both indices at its identity, the
total count decreases by exactly 1, every intermediate bucket emptied by
the removal is deleted so the indices never retain empty containers, and
a per-type count of zero for its type coincides with the type bucket
being gone entirely. -/
theorem unregisterModule_success_spec (st : Registry) (M : Module)
    (hreach : Reachable st)
    (hreg : lookupById st M.genericId M.specificId = some M) :
    (UnregisterModule st M).err = none ∧
    GetModuleById (UnregisterModule st M).state M.genericId M.specificId
      = none ∧
    lookupByType (UnregisterModule st M).state M.moduleType M.genericId
      M.specificId = none ∧
    GetAllModulesCount st
      = GetAllModulesCount (UnregisterModule st M).state + 1 ∧
    NoEmptyBuckets (UnregisterModule st M).state ∧
    (GetModuleCountByType (UnregisterModule st M).state M.moduleType = 0 →
      GetModulesByType (UnregisterModule st M).state M.moduleType = none) := by
  have hwf := wf_reachable st hreach
  have hfk := findModuleKey_of_registered st M hwf hreg
  obtain ⟨hid, ⟨fm0, mm0, hq, hq2, hmmfind⟩, ⟨b0, hq3, hbfind⟩⟩ :=
    unregister_found_facts st M M.specificId hwf hfk
  have heq := unregister_found_eq st M M.specificId hfk
  have hstate : (UnregisterModule st M).state
      = ⟨removeFromTypeIndex st.registeredModulesByType M.moduleType
          M.genericId M.specificId,
        removeFromIdIndex st.registeredModulesById M.genericId
          M.specificId⟩ := by
    rw [heq]
  have hnoEmpty : NoEmptyBuckets (UnregisterModule st M).state := by
    rw [hstate]
    exact ⟨noEmpty_removeFromTypeIndex _ _ _ _ hwf.noEmpty.1,
      noEmpty_removeFromIdIndex _ _ _ hwf.noEmpty.2⟩
  refine ⟨?_, ?_, ?_, ?_, hnoEmpty, ?_⟩
  · rw [heq]
  · rw [hstate]
    exact gfind2_removeFromIdIndex_self st.registeredModulesById
      M.genericId M.specificId
  · rw [hstate]
    exact lookup3_removeT_self st.registeredModulesByType M.moduleType
      M.genericId M.specificId fm0 mm0 hq hq2
  · rw [hstate]
    exact count_removeFromIdIndex st.registeredModulesById M.genericId
      M.specificId b0 M hwf.nodup.2.2.1 hq3 (hwf.nodup.2.2.2 _ b0 hq3) hbfind
  · intro hz
    exact countByType_zero_of_noEmpty _ _ hnoEmpty hz

/-- Witness for C4: unregistering `sampleModule` after registering it. -/
theorem unregisterModule_success_spec_witness :
    lookupById sampleRegistry sampleModule.genericId sampleModule.specificId
        = some sampleModule ∧
    ((UnregisterModule sampleRegistry sampleModule).err = none ∧
      GetModuleById (UnregisterModule sampleRegistry sampleModule).state
        sampleModule.genericId sampleModule.specificId = none ∧
      lookupByType (UnregisterModule sampleRegistry sampleModule).state
        sampleModule.moduleType sampleModule.genericId
        sampleModule.specificId = none ∧
      GetAllModulesCount sampleRegistry
        = GetAllModulesCount
            (UnregisterModule sampleRegistry sampleModule).state + 1 ∧
      NoEmptyBuckets (UnregisterModule sampleRegistry sampleModule).state ∧
      (GetModuleCountByType (UnregisterModule sampleRegistry
          sampleModule).state sampleModule.moduleType = 0 →
        GetModulesByType (UnregisterModule sampleRegistry sampleModule).state
          sampleModule.moduleType = none)) :=
  ⟨by decide,
    unregisterModule_success_spec sampleRegistry sampleModule
      (Reachable.register initRegistry sampleModule Reachable.init)
      (by decide)⟩

/-- C6: dual-index consistency: in every reachable registry state (the
registry only changes through register and unregister calls, which update
both indices in the same atomic logical step), a module is present in the
by-type index under some type and its generic/specific ids exactly when
it is present in the by-id index under the same ids, so a
found-in-one-but-not-the-other state is never observable. -/
theorem registry_dual_index_coherent (st : Registry) (h : Reachable st)
    (g s : String) (m : Module) :
    (∃ t, lookupByType st t g s = some m) ↔ lookupById st g s = some m := by
  have hwf := wf_reachable st h
  constructor
  · rintro ⟨t, ht⟩
    exact hwf.typeToId t g s m ht
  · intro hid
    exact ⟨m.moduleType, hwf.idToType g s m hid⟩

/-- Witness for C6: the coherence equivalence at the state holding
`sampleModule`, instantiated at that module's ids. -/
theorem registry_dual_index_coherent_witness :
    (∃ t, lookupByType sampleRegistry t sampleModule.genericId
        sampleModule.specificId = some sampleModule) ↔
      lookupById sampleRegistry sampleModule.genericId
        sampleModule.specificId = some sampleModule :=
  registry_dual_index_coherent sampleRegistry
    (Reachable.register initRegistry sampleModule Reachable.init)
    sampleModule.genericId sampleModule.specificId sampleModule

/-- Witness for C10: `emptyIdModule` registers into the fresh registry
and becomes the default instance of the empty-string class. -/
theorem registerModule_empty_ids_witness :
    (emptyIdModule.genericId = "" ∧ emptyIdModule.moduleType = "" ∧
      lookupById initRegistry "" "" = none) ∧
    ((RegisterModule initRegistry emptyIdModule).err = none ∧
      GetDefaultModuleByGenericId (RegisterModule initRegistry emptyIdModule).state ""
        = some emptyIdModule) :=
  ⟨⟨rfl, rfl, rfl⟩,
    registerModule_empty_ids initRegistry emptyIdModule rfl rfl rfl rfl rfl⟩

end GoModules
